import Mathlib

/-!
Verification of the todo-app storage/validation core
(`phase-1-console-app/src/models.py` and `phase-1-console-app/src/storage.py`)
against its natural-language specification.

The Python code is shallowly embedded: todo dictionaries become a `Todo`
structure (all fields present, as produced by `create_todo`), the raw
dictionaries handled by the schema migrations become `RawTodo` (field
presence tracked with `Option`), the global `todos` list and `next_id`
counter become a `StoreState` threaded explicitly, and `datetime.now()`
becomes an explicit `now : Date` argument.  `datetime` values are modelled
by their calendar date (the claims under study only concern day-level
arithmetic); `timedelta(days=n)` is day-stepping iterated `n` times and
`dateutil.relativedelta(months=n)` is month-index arithmetic with the day
clamped to the target month's length, which is that library's documented
behaviour.
-/

namespace TodoApp

/-- Calendar date (proleptic Gregorian), the date part of a Python `datetime`. -/
structure Date where
  year : Int
  month : Nat
  day : Nat
deriving DecidableEq, Repr

/-- Gregorian leap-year rule. -/
def isLeapYear (y : Int) : Bool :=
  y % 4 == 0 && (y % 100 != 0 || y % 400 == 0)

/-- Number of days in a month of a given year. -/
def daysInMonth (y : Int) (m : Nat) : Nat :=
  if m = 2 then (if isLeapYear y then 29 else 28)
  else if m = 4 ∨ m = 6 ∨ m = 9 ∨ m = 11 then 30
  else 31

/-- A structurally valid calendar date. -/
def Date.Valid (d : Date) : Prop :=
  1 ≤ d.month ∧ d.month ≤ 12 ∧ 1 ≤ d.day ∧ d.day ≤ daysInMonth d.year d.month

instance (d : Date) : Decidable d.Valid := by
  unfold Date.Valid; infer_instance

/-- The calendar day after `d`. -/
def nextDay (d : Date) : Date :=
  if d.day < daysInMonth d.year d.month then ⟨d.year, d.month, d.day + 1⟩
  else if d.month < 12 then ⟨d.year, d.month + 1, 1⟩
  else ⟨d.year + 1, 1, 1⟩

/-- The calendar day before `d`. -/
def prevDay (d : Date) : Date :=
  if 1 < d.day then ⟨d.year, d.month, d.day - 1⟩
  else if 1 < d.month then ⟨d.year, d.month - 1, daysInMonth d.year (d.month - 1)⟩
  else ⟨d.year - 1, 12, 31⟩

/-- Semantics of Python `base_date + timedelta(days=n)`: step `n` calendar
days forward (backward for negative `n`). -/
def addDays (d : Date) (n : Int) : Date :=
  if 0 ≤ n then nextDay^[n.toNat] d else prevDay^[(-n).toNat] d

/-- Semantics of Python `base_date + relativedelta(months=n)` (dateutil):
add `n` to the month index with year carry, then clamp the day-of-month to
the length of the target month. -/
def addMonths (d : Date) (n : Int) : Date :=
  let mi : Int := 12 * d.year + ((d.month : Int) - 1) + n
  let y := mi.fdiv 12
  let m := (mi.emod 12).toNat + 1
  ⟨y, m, min d.day (daysInMonth y m)⟩

/-- Embedding of `storage.calculate_next_occurrence` (storage.py lines
947-977). -/
def calculate_next_occurrence (base_date : Date) (pattern : String) (interval : Int) :
    Option Date :=
  if pattern = "Daily" then some (addDays base_date interval)
  else if pattern = "Weekly" then some (addDays base_date (7 * interval))
  else if pattern = "Monthly" then some (addMonths base_date interval)
  else none

/-! ### String primitives

Python's `str.strip()`, `str.lower()` and `str.split(",")` are embedded as
character-list computations (extensionally the same functions on the
strings the program handles; written this way so that they reduce inside
the kernel). -/

/-- Python `s.strip()`: drop leading and trailing whitespace. -/
def pyStrip (s : String) : String :=
  String.mk (((s.toList.dropWhile Char.isWhitespace).reverse.dropWhile Char.isWhitespace).reverse)

/-- Python `s.lower()`: lowercase every character. -/
def pyLower (s : String) : String :=
  String.mk (s.toList.map Char.toLower)

/-- Accumulator loop for `pySplitComma`. -/
def splitCommaAux : List Char → List Char → List String
  | [], cur => [String.mk cur.reverse]
  | c :: cs, cur =>
    if c = ',' then String.mk cur.reverse :: splitCommaAux cs []
    else splitCommaAux cs (c :: cur)

/-- Python `s.split(",")`. -/
def pySplitComma (s : String) : List String :=
  splitCommaAux s.toList []

/-! ### Python scalar values and `models.py` validators -/

/-- Python values that can reach `validate_id` in the claims under study.
Finite floats are modelled exactly as rationals. -/
inductive PyValue where
  | intV (n : Int)
  | floatV (q : Rat)
  | boolV (b : Bool)
  | strV (s : String)
  | noneV
deriving DecidableEq, Repr

/-- Truncation toward zero, the behaviour of Python `int()` on a finite float. -/
def ratTrunc (q : Rat) : Int :=
  q.num.tdiv (q.den : Int)

/-- Value of a nonempty all-digit character list, `none` otherwise. -/
def digitsVal (cs : List Char) : Option Nat :=
  if cs ≠ [] ∧ cs.all Char.isDigit then
    some (cs.foldl (fun a c => 10 * a + (c.toNat - 48)) 0)
  else none

/-- Python `int(s)` on a string: surrounding whitespace stripped, optional
sign, decimal digits; anything else raises (modelled as `none`). -/
def parseIntStr (s : String) : Option Int :=
  match (pyStrip s).toList with
  | '+' :: rest => (digitsVal rest).map Int.ofNat
  | '-' :: rest => (digitsVal rest).map (fun n => -(n : Int))
  | cs => (digitsVal cs).map Int.ofNat

/-- Python `int(v)`: identity on ints, truncation on floats, 1/0 on bools,
string parsing on strings; `None` raises `TypeError` (modelled as `none`). -/
def pyInt : PyValue → Option Int
  | .intV n => some n
  | .floatV q => some (ratTrunc q)
  | .boolV b => some (if b then 1 else 0)
  | .strV s => parseIntStr s
  | .noneV => none

/-- Embedding of `models.validate_id` (models.py lines 19-60).  The Python
function returns `(True, id, "")` or `(False, None, msg)`; the success
flag is determined by the optional id, so the result is modelled as
`Option Int` (`none` standing for the failure triple with message
"Error: ID must be a positive integer."). -/
def validate_id (id_value : PyValue) : Option Int :=
  match pyInt id_value with
  | none => none
  | some parsed_id => if parsed_id ≤ 0 then none else some parsed_id

/-- Embedding of `models.validate_title` (models.py lines 63-100). -/
def validate_title (title : Option String) : Bool × String :=
  match title with
  | none => (false, "Error: Title cannot be empty.")
  | some t =>
    if t = "" ∨ pyStrip t = "" then (false, "Error: Title cannot be empty.")
    else if 200 < t.length then (false, "Error: Title exceeds 200 character limit.")
    else (true, "")

/-- Embedding of `models.validate_description` (models.py lines 103-142). -/
def validate_description (description : Option String) : Bool × String :=
  match description with
  | none => (true, "")
  | some d =>
    if d = "" then (true, "")
    else if 1000 < d.length then (false, "Error: Description exceeds 1000 character limit.")
    else (true, "")

/-- Embedding of `models.validate_priority` (models.py lines 145-190). -/
def validate_priority (priority : Option String) : Bool × Option String × String :=
  match priority with
  | none => (false, none, "Error: Priority must be High, Medium, or Low.")
  | some p =>
    if pyStrip p = "" then (false, none, "Error: Priority must be High, Medium, or Low.")
    else
      let ps := pyLower (pyStrip p)
      if ps = "high" then (true, some "High", "")
      else if ps = "medium" then (true, some "Medium", "")
      else if ps = "low" then (true, some "Low", "")
      else (false, none, "Error: Priority must be High, Medium, or Low.")

/-- Tag input shapes accepted by `validate_tags`: `None`, a comma-separated
string, or an already-separated list of values. -/
inductive TagsInput where
  | nullV
  | strV (s : String)
  | listV (l : List String)
deriving DecidableEq, Repr

/-- The normalisation loop of `models.validate_tags` (models.py lines
244-266): walk the trimmed pieces, skipping empties, failing on a piece
longer than 20 characters, lowercasing, and skipping case-insensitive
duplicates via the `seen` set while appending survivors in order. -/
def tagLoop : List String → List String → List String → Bool × Option (List String) × String
  | [], _, acc => (true, some acc, "")
  | tag :: rest, seen, acc =>
    if tag = "" then tagLoop rest seen acc
    else if 20 < tag.length then (false, none, "Error: Each tag must be 1-20 characters.")
    else
      let tag_lower := pyLower tag
      if tag_lower ∈ seen then tagLoop rest seen acc
      else tagLoop rest (tag_lower :: seen) (acc ++ [tag_lower])

/-- Embedding of `models.validate_tags` (models.py lines 193-266). -/
def validate_tags : TagsInput → Bool × Option (List String) × String
  | .nullV => (true, some [], "")
  | .strV s =>
    if pyStrip s = "" then (true, some [], "")
    else tagLoop ((pySplitComma s).map pyStrip) [] []
  | .listV l => tagLoop (l.map pyStrip) [] []

/-- Embedding of `models.validate_recurrence_pattern` (models.py lines
359-412). -/
def validate_recurrence_pattern (pattern : Option String) :
    Bool × Option String × String :=
  match pattern with
  | none => (true, none, "")
  | some p =>
    if pyStrip p = "" then (true, none, "")
    else
      let ps := pyLower (pyStrip p)
      if ps = "none" then (true, none, "")
      else if ps = "daily" then (true, some "Daily", "")
      else if ps = "weekly" then (true, some "Weekly", "")
      else if ps = "monthly" then (true, some "Monthly", "")
      else (false, none, "Error: Recurrence pattern must be None, Daily, Weekly, or Monthly.")

/-! ### Todo records -/

/-- A fully-populated todo dictionary, as built by `models.create_todo`
(models.py lines 415-474).  Every field the code ever writes is present. -/
structure Todo where
  id : Int
  title : String
  description : String
  completed : Bool
  priority : String
  tags : List String
  created_at : Date
  recurrence_pattern : Option String
  recurrence_interval : Int
  next_occurrence : Option Date
deriving DecidableEq, Repr

/-- Embedding of `models.create_todo` (models.py lines 415-474); the
Python defaults (`priority="Medium"`, `tags=None`, pattern `None`,
interval `1`) are passed explicitly at call sites, and `datetime.now()`
is the explicit `now` argument. -/
def create_todo (id : Int) (title description : String) (priority : String)
    (tags : List String) (recurrence_pattern : Option String)
    (recurrence_interval : Int) (now : Date) : Todo :=
  { id := id
    title := title
    description := description
    completed := false
    priority := priority
    tags := tags
    created_at := now
    recurrence_pattern := recurrence_pattern
    recurrence_interval := recurrence_interval
    next_occurrence := none }

/-- A raw stored dictionary as seen by the schema migrations: the Phase I
fields are always present, each later field may be absent (`none`).  For
`recurrence_pattern` and `next_occurrence` the stored value is itself
optional, hence the nested `Option`. -/
structure RawTodo where
  id : Int
  title : String
  description : String
  completed : Bool
  priorityF : Option String
  tagsF : Option (List String)
  created_atF : Option Date
  recurrence_patternF : Option (Option String)
  recurrence_intervalF : Option Int
  next_occurrenceF : Option (Option Date)
deriving DecidableEq, Repr

/-- Embedding of `models.migrate_todo_to_phase2` (models.py lines 269-312):
fill `priority`, `tags`, `created_at` with defaults when missing
(`datetime.now()` is the explicit `now`), leave present fields untouched. -/
def migrate_todo_to_phase2 (now : Date) (todo : RawTodo) : RawTodo :=
  { todo with
    priorityF := some (todo.priorityF.getD "Medium")
    tagsF := some (todo.tagsF.getD [])
    created_atF := some (todo.created_atF.getD now) }

/-- Embedding of `models.migrate_todo_to_phase3` (models.py lines 315-356):
fill the recurrence fields with defaults when missing. -/
def migrate_todo_to_phase3 (todo : RawTodo) : RawTodo :=
  { todo with
    recurrence_patternF := some (todo.recurrence_patternF.getD none)
    recurrence_intervalF := some (todo.recurrence_intervalF.getD 1)
    next_occurrenceF := some (todo.next_occurrenceF.getD none) }

/-- The migration `get_all_todos` applies to every stored record
(storage.py lines 145-147): Phase I → Phase II → Phase III. -/
def migrateToCurrentSchema (now : Date) (todo : RawTodo) : RawTodo :=
  migrate_todo_to_phase3 (migrate_todo_to_phase2 now todo)

/-! ### The store -/

/-- The module-level mutable state of storage.py: the `todos` list and the
`next_id` counter. -/
structure StoreState where
  todos : List Todo
  next_id : Int
deriving DecidableEq, Repr

/-- A fresh process: empty collection, counter 1 (storage.py lines 27-30). -/
def initState : StoreState := ⟨[], 1⟩

/-- First list element with the given id (Python `for todo in todos: if
todo["id"] == parsed_id: return todo`). -/
def findById (pid : Int) : List Todo → Option Todo :=
  List.find? (fun t => t.id == pid)

/-- In-place mutation of the first element with the given id, the effect of
assigning through the alias returned by `get_todo_by_id`. -/
def updateFirst (pid : Int) (f : Todo → Todo) : List Todo → List Todo
  | [] => []
  | t :: rest => if t.id == pid then f t :: rest else t :: updateFirst pid f rest

/-- Removal of the first element with the given id (`todos.remove(todo)`
where `todo` is the first match). -/
def removeFirst (pid : Int) : List Todo → List Todo
  | [] => []
  | t :: rest => if t.id == pid then rest else t :: removeFirst pid rest

/-- Embedding of `storage.get_todo_by_id` (storage.py lines 153-191). -/
def get_todo_by_id (todo_id : PyValue) (s : StoreState) : Option Todo :=
  match validate_id todo_id with
  | none => none
  | some parsed_id => findById parsed_id s.todos

/-- Embedding of `storage.add_todo` (storage.py lines 33-106).  Returns the
`(success, todo_id, message)` triple together with the updated store. -/
def add_todo (title : String) (description : Option String) (now : Date)
    (s : StoreState) : (Bool × Option Int × String) × StoreState :=
  if 1000 ≤ s.todos.length then
    ((false, none, "Error: Maximum 1000 todos reached."), s)
  else if (validate_title (some title)).1 = false then
    ((false, none, (validate_title (some title)).2), s)
  else if (validate_description description).1 = false then
    ((false, none, (validate_description description).2), s)
  else
    let desc := description.getD ""
    let todo_id := s.next_id
    let new_todo := create_todo todo_id title desc "Medium" [] none 1 now
    ((true, some todo_id, s!"Todo added successfully! (ID: {todo_id})"),
      ⟨s.todos ++ [new_todo], s.next_id + 1⟩)

/-- Whether a stored pattern triggers the recurring-task branch of
`mark_complete`: `recurrence_pattern is not None and recurrence_pattern in
["Daily", "Weekly", "Monthly"]` (storage.py line 249). -/
def isActivePattern : Option String → Bool
  | none => false
  | some p => p = "Daily" ∨ p = "Weekly" ∨ p = "Monthly"

/-- Embedding of `storage.mark_complete` (storage.py lines 194-275).
`completed` is set unconditionally through the alias; then, if the (now
completed) todo has an active recurrence pattern, a new instance is
created from `next_id` and appended. -/
def mark_complete (todo_id : PyValue) (now : Date) (s : StoreState) :
    (Bool × String) × StoreState :=
  match validate_id todo_id with
  | none => ((false, "Error: ID must be a positive integer."), s)
  | some parsed_id =>
    match get_todo_by_id (.intV parsed_id) s with
    | none => ((false, s!"Error: Todo with ID {parsed_id} not found."), s)
    | some todo0 =>
      let todo := { todo0 with completed := true }
      let todos1 := updateFirst parsed_id (fun t => { t with completed := true }) s.todos
      if isActivePattern todo.recurrence_pattern then
        let pat := todo.recurrence_pattern.getD ""
        let interval := todo.recurrence_interval
        let next_date := calculate_next_occurrence now pat interval
        let new_id := s.next_id
        let new_todo :=
          { create_todo new_id todo.title todo.description todo.priority
              todo.tags todo.recurrence_pattern interval now with
            next_occurrence := next_date }
        ((true, s!"Todo ID {parsed_id} marked as complete! Next occurrence created (ID: {new_id})."),
          ⟨todos1 ++ [new_todo], s.next_id + 1⟩)
      else
        ((true, s!"Todo ID {parsed_id} marked as complete!"), ⟨todos1, s.next_id⟩)

/-- Embedding of `storage.mark_incomplete` (storage.py lines 278-328). -/
def mark_incomplete (todo_id : PyValue) (s : StoreState) :
    (Bool × String) × StoreState :=
  match validate_id todo_id with
  | none => ((false, "Error: ID must be a positive integer."), s)
  | some parsed_id =>
    match get_todo_by_id (.intV parsed_id) s with
    | none => ((false, s!"Error: Todo with ID {parsed_id} not found."), s)
    | some _ =>
      ((true, s!"Todo ID {parsed_id} marked as incomplete!"),
        ⟨updateFirst parsed_id (fun t => { t with completed := false }) s.todos, s.next_id⟩)

/-- Embedding of `storage.update_todo` (storage.py lines 331-403).  Note
the source order: a provided title is validated and *assigned* before the
description is looked at, so a description failure returns after the title
write has already happened. -/
def update_todo (todo_id : PyValue) (new_title new_description : Option String)
    (s : StoreState) : (Bool × String) × StoreState :=
  match validate_id todo_id with
  | none => ((false, "Error: ID must be a positive integer."), s)
  | some parsed_id =>
    match get_todo_by_id (.intV parsed_id) s with
    | none => ((false, s!"Error: Todo with ID {parsed_id} not found."), s)
    | some _ =>
      let afterTitle : Option StoreState :=
        match new_title with
        | none => some s
        | some t =>
          if (validate_title (some t)).1 = false then none
          else some ⟨updateFirst parsed_id (fun td => { td with title := t }) s.todos, s.next_id⟩
      match new_title, afterTitle with
      | some t, none => ((false, (validate_title (some t)).2), s)
      | _, some s1 =>
        match new_description with
        | none => ((true, s!"Todo ID {parsed_id} updated successfully!"), s1)
        | some d =>
          if (validate_description (some d)).1 = false then
            ((false, (validate_description (some d)).2), s1)
          else
            ((true, s!"Todo ID {parsed_id} updated successfully!"),
              ⟨updateFirst parsed_id (fun td => { td with description := d }) s1.todos, s1.next_id⟩)
      | none, none => ((false, ""), s)

/-- Embedding of `storage.delete_todo` (storage.py lines 406-458). -/
def delete_todo (todo_id : PyValue) (s : StoreState) :
    (Bool × String) × StoreState :=
  match validate_id todo_id with
  | none => ((false, "Error: ID must be a positive integer."), s)
  | some parsed_id =>
    match get_todo_by_id (.intV parsed_id) s with
    | none => ((false, s!"Error: Todo with ID {parsed_id} not found."), s)
    | some _ =>
      ((true, s!"Todo ID {parsed_id} deleted successfully!"),
        ⟨removeFirst parsed_id s.todos, s.next_id⟩)

/-- Embedding of `storage.update_priority` (storage.py lines 461-519). -/
def update_priority (todo_id : PyValue) (new_priority : Option String)
    (s : StoreState) : (Bool × String) × StoreState :=
  match validate_id todo_id with
  | none => ((false, "Error: ID must be a positive integer."), s)
  | some parsed_id =>
    match get_todo_by_id (.intV parsed_id) s with
    | none => ((false, s!"Error: Todo with ID {parsed_id} not found."), s)
    | some _ =>
      match validate_priority new_priority with
      | (false, _, err) => ((false, err), s)
      | (true, normalized, _) =>
        ((true, s!"Todo ID {parsed_id} priority updated!"),
          ⟨updateFirst parsed_id (fun td => { td with priority := normalized.getD "Medium" }) s.todos,
            s.next_id⟩)

/-- Merge loop of `storage.add_tags` (storage.py lines 575-580): append
each normalized tag not already present. -/
def mergeTags (existing new_tags : List String) : List String :=
  new_tags.foldl (fun acc tg => if tg ∈ acc then acc else acc ++ [tg]) existing

/-- Embedding of `storage.add_tags` (storage.py lines 522-586). -/
def add_tags (todo_id : PyValue) (new_tags : TagsInput) (s : StoreState) :
    (Bool × String) × StoreState :=
  match validate_id todo_id with
  | none => ((false, "Error: ID must be a positive integer."), s)
  | some parsed_id =>
    match get_todo_by_id (.intV parsed_id) s with
    | none => ((false, s!"Error: Todo with ID {parsed_id} not found."), s)
    | some _ =>
      match validate_tags new_tags with
      | (false, _, err) => ((false, err), s)
      | (true, normalized, _) =>
        ((true, s!"Tags added to todo ID {parsed_id}!"),
          ⟨updateFirst parsed_id (fun td => { td with tags := mergeTags td.tags (normalized.getD []) }) s.todos,
            s.next_id⟩)

/-- Embedding of `storage.remove_tags` (storage.py lines 589-651). -/
def remove_tags (todo_id : PyValue) (tags_to_remove : TagsInput) (s : StoreState) :
    (Bool × String) × StoreState :=
  match validate_id todo_id with
  | none => ((false, "Error: ID must be a positive integer."), s)
  | some parsed_id =>
    match get_todo_by_id (.intV parsed_id) s with
    | none => ((false, s!"Error: Todo with ID {parsed_id} not found."), s)
    | some _ =>
      match validate_tags tags_to_remove with
      | (false, _, err) => ((false, err), s)
      | (true, normalized, _) =>
        ((true, s!"Tags removed from todo ID {parsed_id}!"),
          ⟨updateFirst parsed_id
              (fun td => { td with tags := td.tags.filter (fun tg => tg ∉ normalized.getD []) }) s.todos,
            s.next_id⟩)

/-- Embedding of `storage.set_recurrence` (storage.py lines 900-944).  The
`interval` argument is stored as given whenever the normalized pattern is
not `None`; no validation is applied to it. -/
def set_recurrence (todo_id : PyValue) (pattern : Option String) (interval : Int)
    (s : StoreState) : (Bool × String) × StoreState :=
  match validate_id todo_id with
  | none => ((false, "Error: ID must be a positive integer."), s)
  | some parsed_id =>
    match get_todo_by_id (.intV parsed_id) s with
    | none => ((false, s!"Error: Todo with ID {parsed_id} not found."), s)
    | some _ =>
      match validate_recurrence_pattern pattern with
      | (false, _, err) => ((false, err), s)
      | (true, normalized, _) =>
        let msg := if normalized = none then s!"Todo ID {parsed_id} recurrence removed!"
                   else s!"Todo ID {parsed_id} recurrence set!"
        ((true, msg),
          ⟨updateFirst parsed_id
              (fun td => { td with
                recurrence_pattern := normalized
                recurrence_interval := if normalized ≠ none then interval else 1
                next_occurrence := none }) s.todos,
            s.next_id⟩)

/-- Stable insertion of a todo into a list sorted by ascending id. -/
def insertById (t : Todo) : List Todo → List Todo
  | [] => [t]
  | u :: us => if t.id < u.id then t :: u :: us else u :: insertById t us

/-- Python `sorted(todos, key=lambda todo: todo["id"])`. -/
def sortById (l : List Todo) : List Todo :=
  l.foldr insertById []

/-- Embedding of `storage.get_all_todos` (storage.py lines 109-150): every
stored record is migrated in place and the list is returned sorted by
ascending id.  On `Todo` every migratable field is present, so the
in-place migration is the identity and the store is unchanged; only the
sorted view remains. -/
def get_all_todos (s : StoreState) : List Todo :=
  sortById s.todos

/-- Embedding of `storage.filter_by_tag` (storage.py lines 755-790): the
query tag is lowercased, each todo's stored tags are tested for exact
membership of that lowercased query. -/
def filter_by_tag (todos : List Todo) (tag : String) : List Todo :=
  todos.filter (fun todo => pyLower tag ∈ todo.tags)

/-- Embedding of `storage.filter_by_status` (storage.py lines 700-721). -/
def filter_by_status (todos : List Todo) (completed : Bool) : List Todo :=
  todos.filter (fun todo => todo.completed == completed)

/-- Embedding of `storage.filter_by_priority` (storage.py lines 724-752). -/
def filter_by_priority (todos : List Todo) (priority : String) : List Todo :=
  todos.filter (fun todo => pyLower todo.priority == pyLower priority)

/-! ### Reachable store states

One constructor per state-changing operation of the store, each over
arbitrary caller-supplied arguments (including the wall clock `now`).
`get_all_todos` / `search_todos` and the pure filters and sorts do not
change the store (the lazy migration they perform is the identity on
fully-populated records), so they contribute no step. -/

/-- One store operation performed with arbitrary caller-supplied
arguments (including the wall clock `now`). -/
inductive Step : StoreState → StoreState → Prop where
  | add (t : String) (d : Option String) (now : Date) (s : StoreState) :
      Step s (add_todo t d now s).2
  | update (v : PyValue) (nt nd : Option String) (s : StoreState) :
      Step s (update_todo v nt nd s).2
  | delete (v : PyValue) (s : StoreState) :
      Step s (delete_todo v s).2
  | complete (v : PyValue) (now : Date) (s : StoreState) :
      Step s (mark_complete v now s).2
  | incomplete (v : PyValue) (s : StoreState) :
      Step s (mark_incomplete v s).2
  | priority (v : PyValue) (p : Option String) (s : StoreState) :
      Step s (update_priority v p s).2
  | addTags (v : PyValue) (tg : TagsInput) (s : StoreState) :
      Step s (add_tags v tg s).2
  | removeTags (v : PyValue) (tg : TagsInput) (s : StoreState) :
      Step s (remove_tags v tg s).2
  | setRec (v : PyValue) (p : Option String) (n : Int) (s : StoreState) :
      Step s (set_recurrence v p n s).2

/-- States reachable from a fresh process by any sequence of store
operations. -/
def Reach (s : StoreState) : Prop :=
  Relation.ReflTransGen Step initState s

/-! ### Auxiliary definitions used by the theorems -/

/-- The id-discipline invariant of the store: every live id is below the
counter and live ids are pairwise distinct. -/
def GoodIds (s : StoreState) : Prop :=
  (∀ t ∈ s.todos, t.id < s.next_id) ∧
  (s.todos.map (fun t => t.id)).Pairwise (fun a b => a ≠ b)

/-- Case-insensitive deduplication keeping first occurrences, relative to
an already-seen set; on an already-lowercased list this is exactly the
spec's "duplicates removed case-insensitively, preserving first-occurrence
order". -/
def dedupKeepFirst (seen : List String) : List String → List String
  | [] => []
  | x :: xs => if x ∈ seen then dedupKeepFirst seen xs else x :: dedupKeepFirst (x :: seen) xs

/-- Specification-side normal form for a tag-piece list: empty pieces
dropped, survivors lowercased, case-insensitive duplicates removed
preserving first-occurrence order. -/
def specTags (pieces : List String) : List String :=
  dedupKeepFirst [] ((pieces.filter (fun p => p ≠ "")).map pyLower)

/-- The trimmed pieces a `validate_tags` input denotes: nothing for null
or blank strings, the comma-split trimmed pieces of a string, the trimmed
stringified elements of a list. -/
def piecesOf : TagsInput → List String
  | .nullV => []
  | .strV s => if pyStrip s = "" then [] else (pySplitComma s).map pyStrip
  | .listV l => l.map pyStrip

/-- A fixed wall-clock date used by the concrete scenarios. -/
def d0 : Date := ⟨2025, 1, 1⟩

/-- The rational 29/10 in lowest terms: the exact value denoted by the
Python float literal 2.9 up to rounding (its truncation is 2 either way). -/
def q29 : Rat := { num := 29, den := 10, den_nz := by norm_num, reduced := by norm_num }

/-- The todo created by the first `add_todo "t" none` on a fresh store. -/
def t1 : Todo := create_todo 1 "t" "" "Medium" [] none 1 d0

/-- The store's first todo after `set_recurrence(1, "Daily", 1)`. -/
def t1rec : Todo :=
  { t1 with recurrence_pattern := some "Daily", recurrence_interval := 1,
            next_occurrence := none }

/-- `n` successive `add_todo "t" none` calls. -/
def addN : Nat → StoreState → StoreState
  | 0, s => s
  | n + 1, s => (add_todo "t" none d0 (addN n s)).2

/-- The store after 1000 successful adds: at the documented capacity. -/
def s1000 : StoreState := addN 1000 initState

/-- One-todo store used by the update-atomicity counterexample. -/
def sOne : StoreState := (add_todo "a" none d0 initState).2

/-- A 1001-character description, one over the documented limit. -/
def longDesc : String := String.mk (List.replicate 1001 'a')

/-- One-todo store for the recurrence-idempotence counterexample. -/
def sRecBase : StoreState := (add_todo "t" none d0 initState).2

/-- The same store with its todo set to recur daily. -/
def sRec : StoreState := (set_recurrence (.intV 1) (some "Daily") 1 sRecBase).2

/-- The recurring todo completed once: two todos live. -/
def sRecOnce : StoreState := (mark_complete (.intV 1) d0 sRec).2

/-- A task whose stored tag is capitalised, bypassing the lowercasing the
store's own normalisation would apply. -/
def taskW : Todo := create_todo 1 "t" "" "Medium" ["Work"] none 1 d0

/-- A task without tags. -/
def taskNoTags : Todo := create_todo 2 "u" "" "Medium" [] none 1 d0

/-- Scenario states for the id-reuse check: three adds, delete id 2, add. -/
def scn3 : StoreState :=
  (add_todo "three" none d0 (add_todo "two" none d0 (add_todo "one" none d0 initState).2).2).2

/-- Scenario continuation: id 2 deleted. -/
def scn4 : StoreState := (delete_todo (.intV 2) scn3).2

/-- Scenario continuation: the add after the deletion. -/
def scn5 : (Bool × Option Int × String) × StoreState := add_todo "four" none d0 scn4

/-! ## Helper lemmas -/

theorem validate_id_pos {v : PyValue} {pid : Int} (h : validate_id v = some pid) :
    1 ≤ pid := by
  unfold validate_id at h
  cases hp : pyInt v with
  | none => simp [hp] at h
  | some n =>
    rw [hp] at h
    by_cases hn : n ≤ 0 <;> simp [hn] at h
    omega

theorem validate_id_intV {pid : Int} (h : 1 ≤ pid) :
    validate_id (.intV pid) = some pid := by
  unfold validate_id pyInt
  have : ¬ pid ≤ 0 := by omega
  simp [this]

theorem get_todo_by_id_intV {pid : Int} (h : 1 ≤ pid) (s : StoreState) :
    get_todo_by_id (.intV pid) s = findById pid s.todos := by
  unfold get_todo_by_id
  rw [validate_id_intV h]

theorem findById_updateFirst (pid : Int) (f : Todo → Todo)
    (hf : ∀ t, (f t).id = t.id) (l : List Todo) :
    findById pid (updateFirst pid f l) = (findById pid l).map f := by
  induction l with
  | nil => rfl
  | cons t rest ih =>
    simp only [findById] at ih ⊢
    by_cases h : t.id = pid
    · have h1 : ((f t).id == pid) = true := by simp [hf, h]
      have h2 : (t.id == pid) = true := by simp [h]
      simp [updateFirst, h, List.find?_cons, h1, h2]
    · have h2 : (t.id == pid) = false := by simp [h]
      simp [updateFirst, h, List.find?_cons, h2, ih]

theorem updateFirst_length (pid : Int) (f : Todo → Todo) (l : List Todo) :
    (updateFirst pid f l).length = l.length := by
  induction l with
  | nil => rfl
  | cons t rest ih =>
    by_cases h : t.id = pid <;> simp [updateFirst, h, ih]

theorem updateFirst_map_id (pid : Int) (f : Todo → Todo)
    (hf : ∀ t, (f t).id = t.id) (l : List Todo) :
    (updateFirst pid f l).map (fun t => t.id) = l.map (fun t => t.id) := by
  induction l with
  | nil => rfl
  | cons t rest ih =>
    by_cases h : t.id = pid <;> simp [updateFirst, h, ih, hf]

theorem removeFirst_sublist (pid : Int) (l : List Todo) :
    (removeFirst pid l).Sublist l := by
  induction l with
  | nil => simp [removeFirst]
  | cons t rest ih =>
    by_cases h : t.id = pid
    · simp only [removeFirst, h]
      simp
    · simp only [removeFirst]
      rw [if_neg (by simp [h])]
      exact List.Sublist.cons₂ t ih

/-! ## C8: schema migration is idempotent -/

/-- C8: `migrateToCurrentSchema` (the Phase I → II → III upgrade applied
by `get_all_todos`) is idempotent — for any wall-clock instants a second
application is the identity — and it only fills the missing fields among
priority, tags, created_at and the recurrence fields, leaving every
present field (and the always-present Phase I fields) untouched. -/
theorem migrate_idempotent :
    ∀ (now1 now2 : Date) (t : RawTodo),
      migrateToCurrentSchema now2 (migrateToCurrentSchema now1 t) = migrateToCurrentSchema now1 t
      ∧ (migrateToCurrentSchema now1 t).priorityF = some (t.priorityF.getD "Medium")
      ∧ (migrateToCurrentSchema now1 t).tagsF = some (t.tagsF.getD [])
      ∧ (migrateToCurrentSchema now1 t).created_atF = some (t.created_atF.getD now1)
      ∧ (migrateToCurrentSchema now1 t).recurrence_patternF = some (t.recurrence_patternF.getD none)
      ∧ (migrateToCurrentSchema now1 t).recurrence_intervalF = some (t.recurrence_intervalF.getD 1)
      ∧ (migrateToCurrentSchema now1 t).next_occurrenceF = some (t.next_occurrenceF.getD none)
      ∧ (migrateToCurrentSchema now1 t).id = t.id
      ∧ (migrateToCurrentSchema now1 t).title = t.title
      ∧ (migrateToCurrentSchema now1 t).description = t.description
      ∧ (migrateToCurrentSchema now1 t).completed = t.completed := by
  intro now1 now2 t
  cases t
  simp [migrateToCurrentSchema, migrate_todo_to_phase2, migrate_todo_to_phase3]

/-! ## C10: validate_id accepts anything int() can truncate -/

/-- C10: `validate_id` accepts any value Python `int()` can convert, not
only integer-valued inputs: a finite float truncates toward zero and
succeeds whenever the truncation is ≥ 1 (2.9 ↦ 2), the boolean True
converts to 1 and succeeds, and the only failures are values on which the
conversion raises (modelled `pyInt = none`) or whose conversion is ≤ 0. -/
theorem validate_id_accepts_truncatable :
    (∀ q : Rat, 1 ≤ ratTrunc q → validate_id (.floatV q) = some (ratTrunc q))
    ∧ validate_id (.boolV true) = some 1
    ∧ validate_id (.floatV (29 / 10 : Rat)) = some 2
    ∧ (∀ v : PyValue,
        validate_id v = none ↔ (pyInt v = none ∨ ∃ n, pyInt v = some n ∧ n ≤ 0)) := by
  have hq : (29 / 10 : Rat) = q29 := by apply Rat.ext <;> norm_num [q29]
  refine ⟨?_, by decide, by rw [hq]; decide, ?_⟩
  · intro q h
    unfold validate_id pyInt
    have : ¬ ratTrunc q ≤ 0 := by omega
    simp [this]
  · intro v
    unfold validate_id
    cases hp : pyInt v with
    | none => simp
    | some n =>
      by_cases hn : n ≤ 0 <;> simp [hn]

/-- Witness for C10 at the concrete input 2.9 (= 29/10). -/
theorem validate_id_accepts_truncatable_witness :
    validate_id (.floatV q29) = some (ratTrunc q29) :=
  validate_id_accepts_truncatable.1 q29 (by decide)

/-! ## C9: set_recurrence stores the interval unvalidated -/

/-- Effect of `set_recurrence` with a real pattern on an existing task:
success, the task's recurrence fields overwritten (interval stored
verbatim), list length and counter unchanged. -/
theorem set_recurrence_effect :
    ∀ (s : StoreState) (pid : Int) (t : Todo) (n : Int) (p : String),
      1 ≤ pid →
      findById pid s.todos = some t →
      (p = "Daily" ∨ p = "Weekly" ∨ p = "Monthly") →
      (set_recurrence (.intV pid) (some p) n s).1.1 = true
      ∧ findById pid (set_recurrence (.intV pid) (some p) n s).2.todos =
          some { t with recurrence_pattern := some p, recurrence_interval := n,
                        next_occurrence := none }
      ∧ (set_recurrence (.intV pid) (some p) n s).2.todos.length = s.todos.length
      ∧ (set_recurrence (.intV pid) (some p) n s).2.next_id = s.next_id := by
  intro s pid t n p hpid hfind hp
  have hvp : validate_recurrence_pattern (some p) = (true, some p, "") := by
    rcases hp with rfl | rfl | rfl <;> decide
  have hv : validate_id (.intV pid) = some pid := validate_id_intV hpid
  have hg : get_todo_by_id (.intV pid) s = some t := by
    rw [get_todo_by_id_intV hpid]; exact hfind
  simp only [set_recurrence, hv, hg, hvp]
  refine ⟨trivial, ?_, by simp [updateFirst_length], trivial⟩
  rw [findById_updateFirst pid
        (fun td => { td with
          recurrence_pattern := some p
          recurrence_interval := if some p ≠ none then n else 1
          next_occurrence := none })
        (fun _ => rfl), hfind]
  simp

/-- C9: for any existing task and any integer `n` — including 0 and
negative values — `set_recurrence` with a real pattern succeeds and stores
exactly `n` as the task's recurrence interval (no validation of the
interval is performed). -/
theorem set_recurrence_stores_any_interval :
    ∀ (s : StoreState) (pid : Int) (t : Todo) (n : Int) (p : String),
      1 ≤ pid →
      findById pid s.todos = some t →
      (p = "Daily" ∨ p = "Weekly" ∨ p = "Monthly") →
      (set_recurrence (.intV pid) (some p) n s).1.1 = true
      ∧ findById pid (set_recurrence (.intV pid) (some p) n s).2.todos =
          some { t with recurrence_pattern := some p, recurrence_interval := n,
                        next_occurrence := none } := by
  intro s pid t n p hpid hfind hp
  obtain ⟨h1, h2, _, _⟩ := set_recurrence_effect s pid t n p hpid hfind hp
  exact ⟨h1, h2⟩

/-- Witness for C9: interval −5 is stored verbatim on the store's only todo. -/
theorem set_recurrence_stores_any_interval_witness :
    (set_recurrence (.intV 1) (some "Weekly") (-5) sRecBase).1.1 = true
    ∧ findById 1 (set_recurrence (.intV 1) (some "Weekly") (-5) sRecBase).2.todos =
        some { t1 with recurrence_pattern := some "Weekly", recurrence_interval := -5,
                       next_occurrence := none } :=
  set_recurrence_stores_any_interval sRecBase 1 t1 (-5) "Weekly" (by decide) (by decide)
    (Or.inr (Or.inl rfl))

/-! ## C5: filter_by_tag (corrected) -/

/-- Membership characterisation of `filter_by_tag`: a todo is kept exactly
when the *lowercased query* occurs verbatim among its stored tags. -/
theorem mem_filter_by_tag (todos : List Todo) (tag : String) (t : Todo) :
    t ∈ filter_by_tag todos tag ↔ t ∈ todos ∧ pyLower tag ∈ t.tags := by
  simp [filter_by_tag, List.mem_filter]

/-- Counterexample to C5 as stated: a task whose stored tag differs from
the query only in letter case is *not* returned — `filter_by_tag` only
lowercases the query, never the stored tags. -/
theorem filter_by_tag_not_case_insensitive_cex :
    taskW.tags = ["Work"]
    ∧ pyLower "Work" = "work"
    ∧ ("Work" : String) ≠ "work"
    ∧ filter_by_tag [taskW] "work" = [] := by decide

/-- C5 amended: `filter_by_tag` returns exactly the tasks whose stored tag
list contains the lowercased query verbatim (so the comparison is
case-insensitive in the query but case-sensitive in the stored tag); a
task with no tags never matches, and a list of tagless tasks yields the
empty list without error. -/
theorem filter_by_tag_amended :
    (∀ (todos : List Todo) (tag : String) (t : Todo),
        t ∈ filter_by_tag todos tag ↔ t ∈ todos ∧ pyLower tag ∈ t.tags)
    ∧ (∀ (todos : List Todo) (tag : String) (t : Todo),
        t.tags = [] → t ∉ filter_by_tag todos tag)
    ∧ (∀ (todos : List Todo) (tag : String),
        (∀ t ∈ todos, t.tags = []) → filter_by_tag todos tag = []) := by
  refine ⟨mem_filter_by_tag, ?_, ?_⟩
  · intro todos tag t ht hmem
    rw [mem_filter_by_tag] at hmem
    rw [ht] at hmem
    exact absurd hmem.2 (List.not_mem_nil _)
  · intro todos tag h
    refine List.eq_nil_iff_forall_not_mem.mpr fun x hx => ?_
    rw [mem_filter_by_tag] at hx
    rw [h x hx.1] at hx
    exact absurd hx.2 (List.not_mem_nil _)

/-- Witness for C5's amended statement: a tagless task is never returned. -/
theorem filter_by_tag_amended_witness :
    taskNoTags ∉ filter_by_tag [taskNoTags] "work" :=
  filter_by_tag_amended.2.1 [taskNoTags] "work" taskNoTags rfl

/-! ## C7: validate_tags normalisation -/

theorem tagLoop_fail (pending : List String) :
    ∀ seen acc : List String,
      (∃ p ∈ pending, p ≠ "" ∧ 20 < p.length) →
      tagLoop pending seen acc = (false, none, "Error: Each tag must be 1-20 characters.") := by
  induction pending with
  | nil => intro seen acc h; simp at h
  | cons tag rest ih =>
    intro seen acc h
    by_cases h0 : tag = ""
    · subst h0
      simp only [tagLoop, if_pos rfl]
      refine ih seen acc ?_
      rcases h with ⟨p, hp, hne, hlen⟩
      rcases List.mem_cons.mp hp with rfl | hmem
      · exact absurd rfl hne
      · exact ⟨p, hmem, hne, hlen⟩
    · by_cases h1 : 20 < tag.length
      · simp [tagLoop, h0, h1]
      · have hrest : ∃ p ∈ rest, p ≠ "" ∧ 20 < p.length := by
          rcases h with ⟨p, hp, hne, hlen⟩
          rcases List.mem_cons.mp hp with rfl | hmem
          · exact absurd hlen h1
          · exact ⟨p, hmem, hne, hlen⟩
        by_cases h2 : pyLower tag ∈ seen <;>
          simp [tagLoop, h0, h1, h2, ih _ _ hrest]

theorem tagLoop_ok (pending : List String) :
    ∀ seen acc : List String,
      (∀ p ∈ pending, p ≠ "" → p.length ≤ 20) →
      tagLoop pending seen acc =
        (true,
          some (acc ++ dedupKeepFirst seen ((pending.filter (fun p => p ≠ "")).map pyLower)),
          "") := by
  induction pending with
  | nil => intro seen acc _; simp [tagLoop, dedupKeepFirst]
  | cons tag rest ih =>
    intro seen acc h
    have hrest : ∀ p ∈ rest, p ≠ "" → p.length ≤ 20 :=
      fun p hp => h p (List.mem_cons_of_mem _ hp)
    by_cases h0 : tag = ""
    · subst h0
      simp only [tagLoop, if_pos rfl]
      rw [ih seen acc hrest]
      simp
    · have h1 : ¬ 20 < tag.length := by
        have := h tag (List.mem_cons_self _ _) h0
        omega
      by_cases h2 : pyLower tag ∈ seen
      · simp only [tagLoop, if_neg h0, if_neg h1, if_pos h2]
        rw [ih seen acc hrest]
        simp [List.filter_cons, h0, dedupKeepFirst, h2]
      · simp only [tagLoop, if_neg h0, if_neg h1, if_neg h2]
        rw [ih (pyLower tag :: seen) (acc ++ [pyLower tag]) hrest]
        simp [List.filter_cons, h0, dedupKeepFirst, h2]

/-- C7: `validate_tags` on any accepted input (null, comma-delimited
string, or list of values) succeeds exactly when no non-empty trimmed
piece exceeds 20 characters, in which case the result is the trimmed,
lowercased pieces with empties dropped and case-insensitive duplicates
removed preserving first-occurrence order; any over-long non-empty piece
fails the whole call with no partial result; "work, Work, WORK" yields
["work"]. -/
theorem validate_tags_normalizes :
    validate_tags (.strV "work, Work, WORK") = (true, some ["work"], "")
    ∧ (∀ input : TagsInput,
        ((validate_tags input).1 = false ↔ ∃ p ∈ piecesOf input, p ≠ "" ∧ 20 < p.length)
        ∧ ((validate_tags input).1 = false → (validate_tags input).2.1 = none)
        ∧ ((validate_tags input).1 = true →
            (validate_tags input).2.1 = some (specTags (piecesOf input)))) := by
  have key : ∀ input : TagsInput,
      validate_tags input =
        (if ∀ p ∈ piecesOf input, p ≠ "" → p.length ≤ 20 then
          (true, some (specTags (piecesOf input)), "")
        else (false, none, "Error: Each tag must be 1-20 characters.")) := by
    intro input
    by_cases h : ∀ p ∈ piecesOf input, p ≠ "" → p.length ≤ 20
    · rw [if_pos h]
      cases input with
      | nullV => simp [validate_tags, specTags, piecesOf, dedupKeepFirst]
      | strV s =>
        by_cases hs : pyStrip s = ""
        · simp [validate_tags, hs, specTags, piecesOf, dedupKeepFirst]
        · simp only [validate_tags, if_neg hs]
          rw [tagLoop_ok _ _ _ (by simpa [piecesOf, hs] using h)]
          simp [specTags, piecesOf, hs]
      | listV l =>
        simp only [validate_tags]
        rw [tagLoop_ok _ _ _ (by simpa [piecesOf] using h)]
        simp [specTags, piecesOf]
    · rw [if_neg h]
      push_neg at h
      obtain ⟨p, hp, hne, hlen⟩ := h
      cases input with
      | nullV => simp [piecesOf] at hp
      | strV s =>
        by_cases hs : pyStrip s = ""
        · simp [piecesOf, hs] at hp
        · simp only [validate_tags, if_neg hs]
          exact tagLoop_fail _ _ _ ⟨p, by simpa [piecesOf, hs] using hp, hne, hlen⟩
      | listV l =>
        simp only [validate_tags]
        exact tagLoop_fail _ _ _ ⟨p, by simpa [piecesOf] using hp, hne, hlen⟩
  refine ⟨by decide, fun input => ⟨?_, ?_, ?_⟩⟩
  · rw [key]
    by_cases h : ∀ p ∈ piecesOf input, p ≠ "" → p.length ≤ 20
    · rw [if_pos h]
      constructor
      · intro hfalse; exact absurd hfalse (by simp)
      · rintro ⟨p, hp, hne, hlen⟩
        exact absurd (h p hp hne) (by omega)
    · rw [if_neg h]
      push_neg at h
      obtain ⟨p, hp, hne, hlen⟩ := h
      constructor
      · intro _; exact ⟨p, hp, hne, hlen⟩
      · intro _; rfl
  · rw [key]
    by_cases h : ∀ p ∈ piecesOf input, p ≠ "" → p.length ≤ 20
    · rw [if_pos h]; intro hx; exact absurd hx (by simp)
    · rw [if_neg h]; intro _; rfl
  · rw [key]
    by_cases h : ∀ p ∈ piecesOf input, p ≠ "" → p.length ≤ 20
    · rw [if_pos h]; intro _; rfl
    · rw [if_neg h]; intro hx; exact absurd hx (by simp)

/-- Witness for C7 at a concrete input. -/
theorem validate_tags_normalizes_witness :
    (validate_tags (.strV "Home, office")).2.1 =
      some (specTags (piecesOf (.strV "Home, office"))) :=
  (validate_tags_normalizes.2 (.strV "Home, office")).2.2 (by decide)

/-! ## C3: mark_complete and recurrence (corrected) -/

theorem findById_append_left (pid : Int) {l1 : List Todo} (l2 : List Todo) {t : Todo}
    (h : findById pid l1 = some t) : findById pid (l1 ++ l2) = some t := by
  induction l1 with
  | nil => simp [findById] at h
  | cons u rest ih =>
    by_cases hu : (u.id == pid) = true
    · simp only [findById, List.find?_cons, hu, List.cons_append] at h ⊢
      exact h
    · have hu' : (u.id == pid) = false := by
        cases hq : (u.id == pid) <;> simp_all
      simp only [findById, List.find?_cons, hu', List.cons_append] at h ⊢
      exact ih h

/-- Counterexample to C3 as stated: completing an *already completed*
recurring task spawns yet another occurrence.  In `sRecOnce` the daily
recurring todo 1 is already completed (its first completion produced todo
2, for 2 live todos); the claim says a second `setCompleted(1, true)`
creates no additional task, but the code appends a third todo. -/
theorem mark_complete_double_spawn_cex :
    (findById 1 sRecOnce.todos).map Todo.completed = some true
    ∧ sRecOnce.todos.length = 2
    ∧ (mark_complete (.intV 1) d0 sRecOnce).1.1 = true
    ∧ (mark_complete (.intV 1) d0 sRecOnce).2.todos.length = 3 := by decide

/-- Effect of `mark_complete` on an existing task: always succeeds,
always sets `completed`, and appends a spawned occurrence exactly when the
stored pattern is active. -/
theorem mark_complete_effect :
    ∀ (s : StoreState) (v : PyValue) (now : Date) (pid : Int) (t : Todo),
      validate_id v = some pid →
      findById pid s.todos = some t →
      (mark_complete v now s).1.1 = true
      ∧ findById pid (mark_complete v now s).2.todos = some { t with completed := true }
      ∧ (mark_complete v now s).2.todos.length =
          (if isActivePattern t.recurrence_pattern then s.todos.length + 1
           else s.todos.length) := by
  intro s v now pid t hv hfind
  have hpid := validate_id_pos hv
  have hg : get_todo_by_id (.intV pid) s = some t := by
    rw [get_todo_by_id_intV hpid]; exact hfind
  have hupd : findById pid (updateFirst pid (fun u => { u with completed := true }) s.todos)
      = some { t with completed := true } := by
    rw [findById_updateFirst pid (fun u => { u with completed := true }) (fun _ => rfl), hfind]
    rfl
  cases hact : isActivePattern t.recurrence_pattern with
  | true =>
    simp only [mark_complete, hv, hg, hact]
    rw [if_pos trivial]
    exact ⟨rfl, findById_append_left pid _ hupd, by simp [updateFirst_length]⟩
  | false =>
    simp only [mark_complete, hv, hg, hact]
    rw [if_neg (by simp)]
    exact ⟨rfl, hupd, by simp [updateFirst_length]⟩

/-- C3 amended: `setCompleted(id, true)` on an existing task always
succeeds and leaves the task completed; it creates a new
recurring-occurrence task exactly when the task has an active recurrence
pattern (Daily, Weekly or Monthly) — *regardless of whether the call
transitions the task from incomplete to completed* — and creates no
additional task when the task has no active pattern (in particular, a
second completion of a non-recurring task is a pure no-op success). -/
theorem mark_complete_spawn_amended :
    ∀ (s : StoreState) (v : PyValue) (now : Date) (pid : Int) (t : Todo),
      validate_id v = some pid →
      findById pid s.todos = some t →
      (mark_complete v now s).1.1 = true
      ∧ findById pid (mark_complete v now s).2.todos = some { t with completed := true }
      ∧ (mark_complete v now s).2.todos.length =
          (if isActivePattern t.recurrence_pattern then s.todos.length + 1
           else s.todos.length) :=
  fun s v now pid t hv hfind => mark_complete_effect s v now pid t hv hfind

set_option maxRecDepth 4000 in
/-- Witness for C3's amended statement on a concrete non-recurring todo. -/
theorem mark_complete_spawn_amended_witness :
    (mark_complete (.intV 1) d0 sRecBase).1.1 = true
    ∧ findById 1 (mark_complete (.intV 1) d0 sRecBase).2.todos
        = some { t1 with completed := true }
    ∧ (mark_complete (.intV 1) d0 sRecBase).2.todos.length =
        (if isActivePattern t1.recurrence_pattern then sRecBase.todos.length + 1
         else sRecBase.todos.length) :=
  mark_complete_spawn_amended sRecBase (.intV 1) d0 1 t1 (by decide) (by decide)

/-! ## C2: update_todo atomicity (corrected) -/

set_option maxRecDepth 100000 in
/-- Counterexample to C2 as stated: with todo 1 titled "a", calling
`update_todo(1, "b", longDesc)` (valid title, over-long description)
returns failure yet leaves the store modified — the title has already
been overwritten with "b" when the description validation fails. -/
theorem update_todo_partial_mutation_cex :
    (update_todo (.intV 1) (some "b") (some longDesc) sOne).1.1 = false
    ∧ (update_todo (.intV 1) (some "b") (some longDesc) sOne).2 ≠ sOne
    ∧ (findById 1 (update_todo (.intV 1) (some "b") (some longDesc) sOne).2.todos).map Todo.title
        = some "b"
    ∧ (findById 1 sOne.todos).map Todo.title = some "a"
    ∧ longDesc.length = 1001 := by decide

/-- C2 amended: a failing `update` leaves the store unchanged in every
case (invalid id, missing task, invalid title) *except one*: when the id
resolves, the provided title is valid and the provided description is
invalid, the call fails after having already overwritten the task's title
with the new title (the description and everything else are unchanged). -/
theorem update_todo_failure_amended :
    ∀ (s : StoreState) (v : PyValue) (nt nd : Option String),
      (update_todo v nt nd s).1.1 = false →
      (update_todo v nt nd s).2 = s
      ∨ (∃ pid t d, validate_id v = some pid ∧ nt = some t
          ∧ (validate_title (some t)).1 = true
          ∧ nd = some d ∧ (validate_description (some d)).1 = false
          ∧ (update_todo v nt nd s).2 =
              ⟨updateFirst pid (fun td => { td with title := t }) s.todos, s.next_id⟩) := by
  intro s v nt nd hfail
  rcases hv : validate_id v with _ | pid
  · left; simp [update_todo, hv]
  · rcases hg : get_todo_by_id (.intV pid) s with _ | t0
    · left; simp [update_todo, hv, hg]
    · rcases nt with _ | t
      · rcases nd with _ | d
        · exfalso; simp [update_todo, hv, hg] at hfail
        · by_cases hd : (validate_description (some d)).1 = false
          · left; simp [update_todo, hv, hg, hd]
          · exfalso; simp [update_todo, hv, hg, hd] at hfail
      · by_cases ht : (validate_title (some t)).1 = false
        · left; simp [update_todo, hv, hg, ht]
        · rcases nd with _ | d
          · exfalso; simp [update_todo, hv, hg, ht] at hfail
          · by_cases hd : (validate_description (some d)).1 = false
            · right
              refine ⟨pid, t, d, rfl, rfl, ?_, rfl, hd, ?_⟩
              · cases hb : (validate_title (some t)).1
                · exact absurd hb ht
                · rfl
              · simp [update_todo, hv, hg, ht, hd]
            · exfalso; simp [update_todo, hv, hg, ht, hd] at hfail

/-- Witness for C2's amended statement at a concrete failing call. -/
theorem update_todo_failure_amended_witness :
    (update_todo (.strV "zzz") (some "b") none initState).2 = initState
    ∨ (∃ pid t d, validate_id (.strV "zzz") = some pid ∧ (some "b" : Option String) = some t
        ∧ (validate_title (some t)).1 = true
        ∧ (none : Option String) = some d ∧ (validate_description (some d)).1 = false
        ∧ (update_todo (.strV "zzz") (some "b") none initState).2 =
            ⟨updateFirst pid (fun td => { td with title := t }) initState.todos,
              initState.next_id⟩) :=
  update_todo_failure_amended initState (.strV "zzz") (some "b") none (by decide)

/-! ## C6: id discipline -/

theorem goodIds_same_ids {s s' : StoreState}
    (hids : s'.todos.map (fun t => t.id) = s.todos.map (fun t => t.id))
    (hnext : s'.next_id = s.next_id) (h : GoodIds s) : GoodIds s' := by
  obtain ⟨h1, h2⟩ := h
  constructor
  · intro t ht
    have hmem : t.id ∈ s'.todos.map (fun t => t.id) := List.mem_map_of_mem _ ht
    rw [hids] at hmem
    obtain ⟨u, hu, hid⟩ := List.mem_map.mp hmem
    rw [hnext, ← hid]
    exact h1 u hu
  · rw [hids]; exact h2

theorem goodIds_updateFirst (pid : Int) (f : Todo → Todo) (hf : ∀ t, (f t).id = t.id)
    {s : StoreState} (h : GoodIds s) : GoodIds ⟨updateFirst pid f s.todos, s.next_id⟩ :=
  goodIds_same_ids (updateFirst_map_id pid f hf s.todos) rfl h

theorem goodIds_removeFirst (pid : Int) {s : StoreState} (h : GoodIds s) :
    GoodIds ⟨removeFirst pid s.todos, s.next_id⟩ := by
  obtain ⟨h1, h2⟩ := h
  have hsub := removeFirst_sublist pid s.todos
  constructor
  · intro t ht
    exact h1 t (hsub.subset ht)
  · exact List.Pairwise.sublist (hsub.map (fun t => t.id)) h2

theorem goodIds_append {s : StoreState} {nt : Todo} (hid : nt.id = s.next_id)
    (h : GoodIds s) : GoodIds ⟨s.todos ++ [nt], s.next_id + 1⟩ := by
  obtain ⟨h1, h2⟩ := h
  constructor
  · intro t ht
    rcases List.mem_append.mp ht with hmem | hmem
    · have := h1 t hmem
      simp only
      omega
    · rw [List.mem_singleton.mp hmem, hid]
      simp only
      omega
  · simp only [List.map_append, List.map_cons, List.map_nil]
    apply List.pairwise_append.mpr
    refine ⟨h2, List.pairwise_singleton _ _, ?_⟩
    intro a ha b hb
    obtain ⟨u, hu, rfl⟩ := List.mem_map.mp ha
    rw [List.mem_singleton.mp hb, hid]
    have := h1 u hu
    omega

theorem goodIds_add_todo (t : String) (d : Option String) (now : Date) (s : StoreState)
    (h : GoodIds s) : GoodIds (add_todo t d now s).2 := by
  by_cases h1 : 1000 ≤ s.todos.length
  · simpa only [add_todo, if_pos h1] using h
  · by_cases h2 : (validate_title (some t)).1 = false
    · simp only [add_todo, h1, h2]
      simpa using h
    · by_cases h3 : (validate_description d).1 = false
      · simp only [add_todo, h1, h2, h3]
        simpa using h
      · simp only [add_todo, h1, h2, h3]
        simp only [if_false, if_neg, ite_false]
        exact goodIds_append rfl h

theorem goodIds_mark_complete (v : PyValue) (now : Date) (s : StoreState)
    (h : GoodIds s) : GoodIds (mark_complete v now s).2 := by
  rcases hv : validate_id v with _ | pid
  · simpa only [mark_complete, hv] using h
  · rcases hg : get_todo_by_id (.intV pid) s with _ | t0
    · simpa only [mark_complete, hv, hg] using h
    · by_cases hact : isActivePattern t0.recurrence_pattern
      · simp only [mark_complete, hv, hg]
        rw [if_pos (by simpa using hact)]
        exact goodIds_append rfl
          (goodIds_updateFirst pid (fun u => { u with completed := true }) (fun _ => rfl) h)
      · simp only [mark_complete, hv, hg]
        rw [if_neg (by simpa using hact)]
        exact goodIds_updateFirst pid (fun u => { u with completed := true }) (fun _ => rfl) h

theorem goodIds_mark_incomplete (v : PyValue) (s : StoreState)
    (h : GoodIds s) : GoodIds (mark_incomplete v s).2 := by
  rcases hv : validate_id v with _ | pid
  · simpa only [mark_incomplete, hv] using h
  · rcases hg : get_todo_by_id (.intV pid) s with _ | t0
    · simpa only [mark_incomplete, hv, hg] using h
    · simp only [mark_incomplete, hv, hg]
      exact goodIds_updateFirst pid (fun u => { u with completed := false }) (fun _ => rfl) h

theorem goodIds_update_todo (v : PyValue) (nt nd : Option String) (s : StoreState)
    (h : GoodIds s) : GoodIds (update_todo v nt nd s).2 := by
  rcases hv : validate_id v with _ | pid
  · simpa only [update_todo, hv] using h
  · rcases hg : get_todo_by_id (.intV pid) s with _ | t0
    · simpa only [update_todo, hv, hg] using h
    · rcases nt with _ | t
      · rcases nd with _ | d
        · simpa only [update_todo, hv, hg] using h
        · by_cases hd : (validate_description (some d)).1 = false
          · simpa only [update_todo, hv, hg, hd] using h
          · simp only [update_todo, hv, hg, hd]
            exact goodIds_updateFirst pid
              (fun td => { td with description := d }) (fun _ => rfl) h
      · by_cases ht : (validate_title (some t)).1 = false
        · simpa only [update_todo, hv, hg, ht] using h
        · rcases nd with _ | d
          · simp only [update_todo, hv, hg, ht]
            exact goodIds_updateFirst pid
              (fun td => { td with title := t }) (fun _ => rfl) h
          · by_cases hd : (validate_description (some d)).1 = false
            · simp only [update_todo, hv, hg, ht, hd]
              exact goodIds_updateFirst pid
                (fun td => { td with title := t }) (fun _ => rfl) h
            · simp only [update_todo, hv, hg, ht, hd]
              exact goodIds_updateFirst pid
                (fun td => { td with description := d }) (fun _ => rfl)
                (goodIds_updateFirst pid
                  (fun td => { td with title := t }) (fun _ => rfl) h)

theorem goodIds_delete_todo (v : PyValue) (s : StoreState)
    (h : GoodIds s) : GoodIds (delete_todo v s).2 := by
  rcases hv : validate_id v with _ | pid
  · simpa only [delete_todo, hv] using h
  · rcases hg : get_todo_by_id (.intV pid) s with _ | t0
    · simpa only [delete_todo, hv, hg] using h
    · simp only [delete_todo, hv, hg]
      exact goodIds_removeFirst pid h

theorem goodIds_update_priority (v : PyValue) (p : Option String) (s : StoreState)
    (h : GoodIds s) : GoodIds (update_priority v p s).2 := by
  rcases hv : validate_id v with _ | pid
  · simpa only [update_priority, hv] using h
  · rcases hg : get_todo_by_id (.intV pid) s with _ | t0
    · simpa only [update_priority, hv, hg] using h
    · rcases hvp : validate_priority p with ⟨b, no, msg⟩
      cases b
      · simpa only [update_priority, hv, hg, hvp] using h
      · simp only [update_priority, hv, hg, hvp]
        exact goodIds_updateFirst pid
          (fun td => { td with priority := no.getD "Medium" }) (fun _ => rfl) h

theorem goodIds_add_tags (v : PyValue) (tg : TagsInput) (s : StoreState)
    (h : GoodIds s) : GoodIds (add_tags v tg s).2 := by
  rcases hv : validate_id v with _ | pid
  · simpa only [add_tags, hv] using h
  · rcases hg : get_todo_by_id (.intV pid) s with _ | t0
    · simpa only [add_tags, hv, hg] using h
    · rcases hvt : validate_tags tg with ⟨b, no, msg⟩
      cases b
      · simpa only [add_tags, hv, hg, hvt] using h
      · simp only [add_tags, hv, hg, hvt]
        exact goodIds_updateFirst pid
          (fun td => { td with tags := mergeTags td.tags (no.getD []) }) (fun _ => rfl) h

theorem goodIds_remove_tags (v : PyValue) (tg : TagsInput) (s : StoreState)
    (h : GoodIds s) : GoodIds (remove_tags v tg s).2 := by
  rcases hv : validate_id v with _ | pid
  · simpa only [remove_tags, hv] using h
  · rcases hg : get_todo_by_id (.intV pid) s with _ | t0
    · simpa only [remove_tags, hv, hg] using h
    · rcases hvt : validate_tags tg with ⟨b, no, msg⟩
      cases b
      · simpa only [remove_tags, hv, hg, hvt] using h
      · simp only [remove_tags, hv, hg, hvt]
        exact goodIds_updateFirst pid
          (fun td => { td with tags := td.tags.filter (fun tg => tg ∉ no.getD []) })
          (fun _ => rfl) h

theorem goodIds_set_recurrence (v : PyValue) (p : Option String) (n : Int) (s : StoreState)
    (h : GoodIds s) : GoodIds (set_recurrence v p n s).2 := by
  rcases hv : validate_id v with _ | pid
  · simpa only [set_recurrence, hv] using h
  · rcases hg : get_todo_by_id (.intV pid) s with _ | t0
    · simpa only [set_recurrence, hv, hg] using h
    · rcases hvp : validate_recurrence_pattern p with ⟨b, no, msg⟩
      cases b
      · simpa only [set_recurrence, hv, hg, hvp] using h
      · simp only [set_recurrence, hv, hg, hvp]
        exact goodIds_updateFirst pid
          (fun td => { td with
            recurrence_pattern := no
            recurrence_interval := if no ≠ none then n else 1
            next_occurrence := none }) (fun _ => rfl) h

theorem step_goodIds {s s' : StoreState} (hs : Step s s') (h : GoodIds s) : GoodIds s' := by
  cases hs with
  | add t d now s => exact goodIds_add_todo t d now s h
  | update v nt nd s => exact goodIds_update_todo v nt nd s h
  | delete v s => exact goodIds_delete_todo v s h
  | complete v now s => exact goodIds_mark_complete v now s h
  | incomplete v s => exact goodIds_mark_incomplete v s h
  | priority v p s => exact goodIds_update_priority v p s h
  | addTags v tg s => exact goodIds_add_tags v tg s h
  | removeTags v tg s => exact goodIds_remove_tags v tg s h
  | setRec v p n s => exact goodIds_set_recurrence v p n s h

theorem reach_goodIds {s : StoreState} (h : Reach s) : GoodIds s := by
  unfold Reach at h
  induction h with
  | refl => exact ⟨by simp [initState], by simp [initState]⟩
  | tail _ hstep ih => exact step_goodIds hstep ih

theorem step_next_id_mono {s s' : StoreState} (hs : Step s s') : s.next_id ≤ s'.next_id := by
  cases hs with
  | add t d now s =>
    by_cases h1 : 1000 ≤ s.todos.length
    · simp [add_todo, h1] <;> omega
    · by_cases h2 : (validate_title (some t)).1 = false
      · simp [add_todo, h1, h2] <;> omega
      · by_cases h3 : (validate_description d).1 = false
        · simp [add_todo, h1, h2, h3] <;> omega
        · simp [add_todo, h1, h2, h3] <;> omega
  | update v nt nd s =>
    rcases hv : validate_id v with _ | pid
    · simp [update_todo, hv] <;> omega
    · rcases hg : get_todo_by_id (.intV pid) s with _ | t0
      · simp [update_todo, hv, hg] <;> omega
      · rcases nt with _ | t
        · rcases nd with _ | d
          · simp [update_todo, hv, hg] <;> omega
          · by_cases hd : (validate_description (some d)).1 = false <;>
              simp [update_todo, hv, hg, hd] <;> omega
        · by_cases ht : (validate_title (some t)).1 = false
          · simp [update_todo, hv, hg, ht] <;> omega
          · rcases nd with _ | d
            · simp [update_todo, hv, hg, ht] <;> omega
            · by_cases hd : (validate_description (some d)).1 = false <;>
                simp [update_todo, hv, hg, ht, hd] <;> omega
  | delete v s =>
    rcases hv : validate_id v with _ | pid
    · simp [delete_todo, hv] <;> omega
    · rcases hg : get_todo_by_id (.intV pid) s with _ | t0 <;>
        simp [delete_todo, hv, hg] <;> omega
  | complete v now s =>
    rcases hv : validate_id v with _ | pid
    · simp [mark_complete, hv] <;> omega
    · rcases hg : get_todo_by_id (.intV pid) s with _ | t0
      · simp [mark_complete, hv, hg] <;> omega
      · by_cases hact : isActivePattern t0.recurrence_pattern
        · simp only [mark_complete, hv, hg]
          rw [if_pos (by simpa using hact)]
          simp <;> omega
        · simp only [mark_complete, hv, hg]
          rw [if_neg (by simpa using hact)]
  | incomplete v s =>
    rcases hv : validate_id v with _ | pid
    · simp [mark_incomplete, hv] <;> omega
    · rcases hg : get_todo_by_id (.intV pid) s with _ | t0 <;>
        simp [mark_incomplete, hv, hg] <;> omega
  | priority v p s =>
    rcases hv : validate_id v with _ | pid
    · simp [update_priority, hv] <;> omega
    · rcases hg : get_todo_by_id (.intV pid) s with _ | t0
      · simp [update_priority, hv, hg] <;> omega
      · rcases hvp : validate_priority p with ⟨b, no, msg⟩
        cases b <;> simp [update_priority, hv, hg, hvp] <;> omega
  | addTags v tg s =>
    rcases hv : validate_id v with _ | pid
    · simp [add_tags, hv] <;> omega
    · rcases hg : get_todo_by_id (.intV pid) s with _ | t0
      · simp [add_tags, hv, hg] <;> omega
      · rcases hvt : validate_tags tg with ⟨b, no, msg⟩
        cases b <;> simp [add_tags, hv, hg, hvt] <;> omega
  | removeTags v tg s =>
    rcases hv : validate_id v with _ | pid
    · simp [remove_tags, hv] <;> omega
    · rcases hg : get_todo_by_id (.intV pid) s with _ | t0
      · simp [remove_tags, hv, hg] <;> omega
      · rcases hvt : validate_tags tg with ⟨b, no, msg⟩
        cases b <;> simp [remove_tags, hv, hg, hvt] <;> omega
  | setRec v p n s =>
    rcases hv : validate_id v with _ | pid
    · simp [set_recurrence, hv] <;> omega
    · rcases hg : get_todo_by_id (.intV pid) s with _ | t0
      · simp [set_recurrence, hv, hg] <;> omega
      · rcases hvp : validate_recurrence_pattern p with ⟨b, no, msg⟩
        cases b <;> simp [set_recurrence, hv, hg, hvp] <;> omega

/-- C6: in every reachable store state the live task ids are pairwise
distinct and all lie strictly below the id counter (hence any newly
assigned id, which is always the counter value, exceeds every live id);
the counter never decreases across any operation and is the value handed
out by a successful `add`, which then increments it; deletion leaves the
counter untouched; and in the concrete scenario add,add,add (ids 1,2,3),
delete(2), add — the final add yields id 4 and list() returns ids
[1, 3, 4], so the deleted id 2 is never reused. -/
theorem ids_unique_monotone_never_reused :
    (∀ s : StoreState, Reach s →
      (s.todos.map (fun t => t.id)).Pairwise (fun a b => a ≠ b)
      ∧ ∀ t ∈ s.todos, t.id < s.next_id)
    ∧ (∀ {s s' : StoreState}, Step s s' → s.next_id ≤ s'.next_id)
    ∧ (∀ (t : String) (d : Option String) (now : Date) (s : StoreState),
        (add_todo t d now s).1.1 = true →
          (add_todo t d now s).1.2.1 = some s.next_id
          ∧ (add_todo t d now s).2.next_id = s.next_id + 1)
    ∧ (∀ (v : PyValue) (s : StoreState), (delete_todo v s).2.next_id = s.next_id)
    ∧ scn5.1.2.1 = some 4
    ∧ (get_all_todos scn5.2).map (fun t => t.id) = [1, 3, 4] := by
  refine ⟨?_, fun h => step_next_id_mono h, ?_, ?_, by decide, by decide⟩
  · intro s hs
    obtain ⟨h1, h2⟩ := reach_goodIds hs
    exact ⟨h2, h1⟩
  · intro t d now s hsucc
    by_cases h1 : 1000 ≤ s.todos.length
    · exfalso; simp only [add_todo, if_pos h1] at hsucc; exact absurd hsucc (by simp)
    · by_cases h2 : (validate_title (some t)).1 = false
      · exfalso; simp only [add_todo, h1, h2] at hsucc
        simp at hsucc
      · by_cases h3 : (validate_description d).1 = false
        · exfalso; simp only [add_todo, h1, h2, h3] at hsucc
          simp at hsucc
        · simp only [add_todo, h1, h2, h3]
          simp
  · intro v s
    rcases hv : validate_id v with _ | pid
    · simp only [delete_todo, hv]
    · rcases hg : get_todo_by_id (.intV pid) s with _ | t0 <;>
        simp only [delete_todo, hv, hg]

/-- Witness for C6: the invariant instantiated at the concrete reachable
three-todo scenario state, and counter monotonicity at a concrete step. -/
theorem ids_unique_monotone_never_reused_witness :
    ((scn3.todos.map (fun t => t.id)).Pairwise (fun a b => a ≠ b)
      ∧ ∀ t ∈ scn3.todos, t.id < scn3.next_id)
    ∧ initState.next_id ≤ (add_todo "one" none d0 initState).2.next_id := by
  have h1 : Reach (add_todo "one" none d0 initState).2 :=
    Relation.ReflTransGen.refl.tail (Step.add "one" none d0 initState)
  have h2 : Reach (add_todo "two" none d0 (add_todo "one" none d0 initState).2).2 :=
    h1.tail (Step.add "two" none d0 _)
  have h3 : Reach scn3 := h2.tail (Step.add "three" none d0 _)
  exact ⟨ids_unique_monotone_never_reused.1 scn3 h3,
    ids_unique_monotone_never_reused.2.1 (Step.add "one" none d0 initState)⟩

/-! ## C4: recurrence date arithmetic -/

set_option maxRecDepth 8000 in
/-- C4: the next-occurrence computation is `B + N days` for Daily
(`timedelta(days=N)`: day-stepping), `B + N weeks = B + 7·N days` for
Weekly, and `B + N calendar months` for Monthly
(`relativedelta(months=N)`: month-index arithmetic whose day-of-month is
clamped to the target month's length — so Jan 31 + 1 month is Feb 28
(Feb 29 in a leap year), *not* the fixed-30-day answer Mar 2); and the
task spawned on completing a recurring task carries exactly this date as
its `next_occurrence` and an id (the counter value) distinct from the
completed task's id. -/
theorem calculate_next_occurrence_spec :
    (∀ (B : Date) (N : Int), calculate_next_occurrence B "Daily" N = some (addDays B N))
    ∧ (∀ (B : Date) (N : Int), calculate_next_occurrence B "Weekly" N = some (addDays B (7 * N)))
    ∧ (∀ (B : Date) (N : Int), calculate_next_occurrence B "Monthly" N = some (addMonths B N))
    ∧ (∀ (B : Date) (N : Int),
        (addMonths B N).day =
          min B.day (daysInMonth (addMonths B N).year (addMonths B N).month))
    ∧ calculate_next_occurrence ⟨2025, 1, 31⟩ "Monthly" 1 = some ⟨2025, 2, 28⟩
    ∧ calculate_next_occurrence ⟨2024, 1, 31⟩ "Monthly" 1 = some ⟨2024, 2, 29⟩
    ∧ addDays ⟨2025, 1, 31⟩ 30 = ⟨2025, 3, 2⟩
    ∧ calculate_next_occurrence ⟨2025, 1, 31⟩ "Monthly" 1 ≠ some (addDays ⟨2025, 1, 31⟩ 30)
    ∧ calculate_next_occurrence ⟨2025, 1, 1⟩ "Daily" 1 = some ⟨2025, 1, 2⟩
    ∧ (∀ (s : StoreState) (v : PyValue) (now : Date) (pid : Int) (t : Todo) (p : String),
        validate_id v = some pid →
        findById pid s.todos = some t →
        t.recurrence_pattern = some p →
        isActivePattern (some p) = true →
        (∀ u ∈ s.todos, u.id < s.next_id) →
        ∃ nt, (mark_complete v now s).2.todos.getLast? = some nt
          ∧ nt.next_occurrence = calculate_next_occurrence now p t.recurrence_interval
          ∧ nt.id = s.next_id
          ∧ nt.id ≠ t.id) := by
  refine ⟨fun B N => by simp [calculate_next_occurrence],
    fun B N => by simp [calculate_next_occurrence],
    fun B N => by simp [calculate_next_occurrence], fun B N => rfl,
    by decide, by decide, by decide, by decide, by decide, ?_⟩
  intro s v now pid t p hv hfind hpat hact hbound
  have hpid := validate_id_pos hv
  have hg : get_todo_by_id (.intV pid) s = some t := by
    rw [get_todo_by_id_intV hpid]; exact hfind
  have hmem : t ∈ s.todos := List.mem_of_find?_eq_some hfind
  have htlt : t.id < s.next_id := hbound t hmem
  simp only [mark_complete, hv, hg, hpat]
  rw [if_pos (by simpa using hact)]
  refine ⟨_, List.getLast?_concat _, by simp, rfl, ?_⟩
  show ¬ s.next_id = t.id
  omega

/-- Witness for C4's spawn clause at the concrete recurring store `sRec`. -/
theorem calculate_next_occurrence_spec_witness :
    ∃ nt, (mark_complete (.intV 1) d0 sRec).2.todos.getLast? = some nt
      ∧ nt.next_occurrence = calculate_next_occurrence d0 "Daily" t1rec.recurrence_interval
      ∧ nt.id = sRec.next_id
      ∧ nt.id ≠ t1rec.id :=
  calculate_next_occurrence_spec.2.2.2.2.2.2.2.2.2 sRec (.intV 1) d0 1 t1rec "Daily"
    (by decide) (by decide) rfl (by decide) (by decide)

/-! ## C1: the 1000-task capacity ceiling -/

theorem add_todo_success_shape (s : StoreState) (hcap : s.todos.length < 1000) :
    (add_todo "t" none d0 s).2 =
      ⟨s.todos ++ [create_todo s.next_id "t" "" "Medium" [] none 1 d0], s.next_id + 1⟩ := by
  have h1 : ¬ 1000 ≤ s.todos.length := by omega
  have h2 : ¬ (validate_title (some "t")).1 = false := by decide
  have h3 : ¬ (validate_description (none : Option String)).1 = false := by decide
  simp [add_todo, h1, h2, h3]

theorem addN_reach {s : StoreState} (h : Reach s) (n : Nat) : Reach (addN n s) := by
  induction n with
  | zero => exact h
  | succ k ih => exact Relation.ReflTransGen.tail ih (Step.add "t" none d0 (addN k s))

theorem addN_spec (n : Nat) (hn : n ≤ 1000) :
    (addN n initState).todos.length = n
    ∧ (addN n initState).next_id = n + 1
    ∧ (1 ≤ n → ∃ rest, (addN n initState).todos = t1 :: rest) := by
  induction n with
  | zero => exact ⟨rfl, rfl, by omega⟩
  | succ k ih =>
    obtain ⟨hlen, hnext, hcons⟩ := ih (by omega)
    have hshape := add_todo_success_shape (addN k initState) (by omega)
    refine ⟨?_, ?_, fun _ => ?_⟩
    · show (add_todo "t" none d0 (addN k initState)).2.todos.length = k + 1
      rw [hshape]
      simp [hlen]
    · show (add_todo "t" none d0 (addN k initState)).2.next_id = (k + 1) + 1
      rw [hshape]
      simp only
      omega
    · show ∃ rest, (add_todo "t" none d0 (addN k initState)).2.todos = t1 :: rest
      rw [hshape]
      by_cases hk : 1 ≤ k
      · obtain ⟨rest, hrest⟩ := hcons hk
        exact ⟨rest ++ [create_todo (addN k initState).next_id "t" "" "Medium" [] none 1 d0],
          by rw [hrest]; simp⟩
      · have hk0 : k = 0 := by omega
        subst hk0
        refine ⟨[], ?_⟩
        rw [hnext]
        rfl

/-- C1 (refuted by the code): the ceiling holds for `add` — an add on a
full store fails — but the recurrence branch of `mark_complete` performs
no capacity check, so from the empty store the sequence of 1000
successful adds, `set_recurrence(1, "Daily", 1)` and `mark_complete(1)`
reaches a store holding 1001 live todos, violating the ≤ 1000 ceiling. -/
theorem capacity_ceiling_violated :
    s1000.todos.length = 1000
    ∧ (add_todo "t" none d0 s1000).1.1 = false
    ∧ ∃ s' : StoreState, Reach s' ∧ s'.todos.length = 1001 := by
  obtain ⟨hlen, hnext, hcons⟩ := addN_spec 1000 (le_refl _)
  obtain ⟨rest, hrest⟩ := hcons (by omega)
  have hreach1000 : Reach s1000 := addN_reach Relation.ReflTransGen.refl 1000
  have hv1 : validate_id (.intV 1) = some 1 := by decide
  have hfind1 : findById 1 s1000.todos = some t1 := by
    show findById 1 (addN 1000 initState).todos = some t1
    rw [hrest]
    have ht : (t1.id == (1 : Int)) = true := by decide
    simp [findById, List.find?_cons, ht]
  have hlen1000 : s1000.todos.length = 1000 := by
    show (addN 1000 initState).todos.length = 1000
    exact hlen
  obtain ⟨hsOk, hsFind, hsLen, hsNext⟩ :=
    set_recurrence_effect s1000 1 t1 1 "Daily" (by omega) hfind1 (Or.inl rfl)
  have heff := mark_complete_effect ((set_recurrence (.intV 1) (some "Daily") 1 s1000).2)
    (.intV 1) d0 1
    { t1 with recurrence_pattern := some "Daily", recurrence_interval := 1,
              next_occurrence := none } hv1 hsFind
  have hOverLen :
      (mark_complete (.intV 1) d0
        ((set_recurrence (.intV 1) (some "Daily") 1 s1000).2)).2.todos.length = 1001 := by
    have hfact : isActivePattern
        ({ t1 with recurrence_pattern := some "Daily", recurrence_interval := (1 : Int),
                   next_occurrence := none } : Todo).recurrence_pattern = true := rfl
    have hx := heff.2.2
    rw [hfact] at hx
    rw [if_pos rfl] at hx
    rw [hsLen] at hx
    rw [hlen1000] at hx
    exact hx
  have hreachCap : Reach ((set_recurrence (.intV 1) (some "Daily") 1 s1000).2) :=
    Relation.ReflTransGen.tail hreach1000 (Step.setRec (.intV 1) (some "Daily") 1 s1000)
  have hreachOver : Reach ((mark_complete (.intV 1) d0
      ((set_recurrence (.intV 1) (some "Daily") 1 s1000).2)).2) :=
    Relation.ReflTransGen.tail hreachCap
      (Step.complete (.intV 1) d0 ((set_recurrence (.intV 1) (some "Daily") 1 s1000).2))
  have hfull : (add_todo "t" none d0 s1000).1.1 = false := by
    have h1 : 1000 ≤ s1000.todos.length := le_of_eq hlen1000.symm
    simp [add_todo, h1]
  exact ⟨hlen1000, hfull, _, hreachOver, hOverLen⟩

end TodoApp
